import Mathlib

/-!
# Verification of the video-dubber Segment Synchronization & Chunked Pipeline

Shallow embedding of the synchronization logic of the `Essxm01/video-dubber`
repository, together with theorems settling the specification claims.

Times are modelled as exact rationals (`ℚ`).  Durations carried in
milliseconds are suffixed `Ms`; Python's `int()` truncation of a positive
float is modelled with `Int.floor`.  Calls to external services
(Whisper/Gemini/Azure, ffmpeg subprocesses) are modelled by their observable
result: a synthesized clip is represented by its duration, a failed
synthesis by `none`.
-/

namespace VideoDubber

/-- The kinds of timeline artifacts produced by the pipeline.
`speech` is a synthesized clip (possibly speed-adjusted), `silence` a
generated silent filler, `original` a window copied from the source audio,
and `videoFreeze` a frozen-frame picture extension. -/
inductive ArtifactKind
  | speech
  | silence
  | original
  | videoFreeze
  deriving DecidableEq, Repr

/-- One piece of the output timeline.  `durationMs` is the audio (or, for
`videoFreeze`, picture) duration in milliseconds; `srcStartSec` is the start
of the copied source window in seconds for `original` artifacts and `0`
otherwise. -/
structure Artifact where
  kind : ArtifactKind
  durationMs : ℚ
  srcStartSec : ℚ
  deriving DecidableEq, Repr

/-- A transcription segment as consumed by `process_segment_pipeline` in
`src/backend/services/processing.py`: `start`/`stop` are the Whisper
timestamps in seconds (`stop` embeds the Python dict key `end`, which is a
Lean keyword) and `textLen` is the length of the translated text after
`clean_text` (the pipeline only inspects the cleaned text's length). -/
structure Segment where
  start : ℚ
  stop : ℚ
  textLen : ℕ
  deriving DecidableEq, Repr

/-- Constant `est_chars_per_sec = 13` from `process_segment_pipeline`
(`processing.py`): the fixed chars-per-second constant used by the
pre-synthesis length guard. -/
def est_chars_per_sec : ℚ := 13

/-- Models the early-return check inside `condense_text` (`processing.py`
lines 178-203), assuming the Gemini client is configured: the function
issues a shortening request unless
`needed_reduction = 1.0 - target_seconds / current_est_seconds < 0.1`. -/
def condense_text_requests (targetSeconds currentEstSeconds : ℚ) : Bool :=
  !(decide (1 - targetSeconds / currentEstSeconds < 0.1))

/-- The pre-synthesis length guard of `process_segment_pipeline`
(`processing.py` lines 372-386) combined with `condense_text`'s own
early-return: returns `true` exactly when a shortened paraphrase is
requested from the translation model.  `textLen` is the cleaned translated
text's length, `targetDur` the segment duration `end - start` in seconds.
The code computes `est_duration = len(text) / 13` and calls `condense_text`
when `est_duration > target_dur * 1.25`. -/
def pipelineCondenseRequested (textLen : ℕ) (targetDur : ℚ) : Bool :=
  let est := (textLen : ℚ) / est_chars_per_sec
  if est > targetDur * 1.25 then condense_text_requests targetDur est else false

/-- Gap-fill block of `process_segment_pipeline` (`processing.py` lines
425-431): when `start_gap_ms = start * 1000 - current_timeline_ms` exceeds
100 ms, `generate_silence(int(start_gap_ms), ...)` emits a silence artifact
of the gap truncated to whole milliseconds, and the cursor advances by the
exact, unrounded gap.  Returns the emitted artifacts (at most one) and the
updated cursor. -/
def gapFill (segStartSec cursor : ℚ) : List Artifact × ℚ :=
  if segStartSec * 1000 - cursor > 100 then
    ([⟨ArtifactKind.silence, ((⌊segStartSec * 1000 - cursor⌋ : ℤ) : ℚ), 0⟩],
     cursor + (segStartSec * 1000 - cursor))
  else ([], cursor)

/-- Duration-reconciliation block of `process_segment_pipeline`
(`processing.py` lines 433-472): given the sanitized clip duration and the
target duration (ms), computes `ratio = tts_dur_ms / target_dur_ms` (or
`1.0` when the target is not positive) and returns the emitted artifact and
the cursor advance: use as-is (`ratio <= 1.0`, advance by the clip's
duration), speed-up by `ratio` (`ratio <= 1.25`, advance by
`target_dur_ms`), or speed-up capped at `1.25` (advance by
`tts_dur_ms / 1.25`).  `adjust_speed` by factor `f` turns a clip of `d` ms
into a clip of `d / f` ms. -/
def reconcile (ttsMs targetMs : ℚ) : Artifact × ℚ :=
  let ratio := if targetMs > 0 then ttsMs / targetMs else 1
  if ratio ≤ 1 then (⟨ArtifactKind.speech, ttsMs, 0⟩, ttsMs)
  else if ratio ≤ 1.25 then (⟨ArtifactKind.speech, ttsMs / ratio, 0⟩, targetMs)
  else (⟨ArtifactKind.speech, ttsMs / 1.25, 0⟩, ttsMs / 1.25)

/-- Per-segment body of the loop in `process_segment_pipeline`
(`processing.py` lines 362-476).  Input: the segment, the synthesized
clip's duration in ms after `sanitize_audio` (`none` when
`generate_audio_gemini` failed or produced no file), and the running
`current_timeline_ms` cursor.  Output: the artifacts appended to
`dubbed_files`, in order, and the updated cursor.

Control flow mirrored from the source:
* empty / short cleaned text (`len(text) < 2`) is skipped entirely;
* a failed synthesis falls back to copying the original source audio
  window `[start, start + target_dur)` and advances the cursor by
  `target_dur * 1000` — note this happens *before* the gap-fill check;
* otherwise the gap-fill block (`gapFill`) runs, followed by the
  duration-reconciliation block (`reconcile`), and the cursor advances by
  the sum of their advances. -/
def segStep (seg : Segment) (synth : Option ℚ) (cursor : ℚ) :
    List Artifact × ℚ :=
  if seg.textLen < 2 then ([], cursor)
  else
    let targetDur := seg.stop - seg.start
    match synth with
    | none =>
        ([⟨ArtifactKind.original, targetDur * 1000, seg.start⟩],
         cursor + targetDur * 1000)
    | some ttsMs =>
        let pre := gapFill seg.start cursor
        let rec1 := reconcile ttsMs (targetDur * 1000)
        (pre.1 ++ [rec1.1], pre.2 + rec1.2)

/-- The full per-chunk loop of `process_segment_pipeline`: fold `segStep`
over the chunk's segments (each paired with its synthesis outcome),
threading `current_timeline_ms` and accumulating `dubbed_files`. -/
def processSegments : List (Segment × Option ℚ) → ℚ → List Artifact × ℚ
  | [], cursor => ([], cursor)
  | (seg, synth) :: rest, cursor =>
      let out := segStep seg synth cursor
      let outR := processSegments rest out.2
      (out.1 ++ outR.1, outR.2)

/-- The end-of-chunk video stretch decision of `process_segment_pipeline`
(`processing.py` lines 487-507): after concatenating the chunk's audio, if
`audio_len_ms > video_len_ms + 100` the picture track is slowed by
`setpts = (audio_len_ms / video_len_ms) * PTS`; otherwise it is left
untouched.  Returns the stretch factor, or `none` when no stretch is
applied. -/
def muxStretch (audioLenMs videoLenMs : ℚ) : Option ℚ :=
  if audioLenMs > videoLenMs + 100 then some (audioLenMs / videoLenMs)
  else none

/-- Observable output of one iteration of the elastic-sync loop in
`process_video_task` (`src/backend/main.py` lines 775-897):
`audioAddsMs` lists the durations (ms) of the pieces appended to
`chunk_master_audio`, in order; `freezeSec` is the duration (seconds)
passed to `create_freeze_frame_video` when a frozen-frame extension is
produced; `videoCursor` is the updated `current_video_cursor` (seconds). -/
structure MainStepOut where
  audioAddsMs : List ℚ
  freezeSec : Option ℚ
  videoCursor : ℚ
  deriving DecidableEq, Repr

/-- One iteration of the elastic-sync loop in `process_video_task`
(`src/backend/main.py` lines 775-897).  `segStart`/`segStop` are the
segment's timestamps (seconds), `genMs` the duration of the loaded
synthesized clip (`AudioSegment.silent(500)` when the TTS file is missing
or tiny), `cursor` the incoming `current_video_cursor` in seconds.

Mirrored from the source:
* if `seg_start > cursor` a silence of `int(gap * 1000)` ms is appended
  first and the cursor moves to `seg_start`;
* `ratio = generated_dur / original_dur` (or `1.0` when the original
  duration is not positive) with `generated_dur = genMs / 1000`;
* Scenario A (`ratio <= 1.0`): `chunk_master_audio += segment_audio` is
  executed *before* the trailing-silence pad is computed, and the padded
  local variable is never used again, so the unpadded clip of `genMs` ms is
  what reaches the chunk track;
* Scenario B (`1.0 < ratio <= 1.3`): `speed_up_audio` by `ratio` appends a
  clip of `genMs / ratio` ms;
* Scenario C (`ratio > 1.3`): `speed_up_audio` by `1.3` appends a clip of
  `genMs / 1.3` ms and, when `extra_time = len(segment_audio)/1000 -
  original_dur > 0`, a freeze-frame video of `extra_time` seconds is
  created;
* in every scenario `current_video_cursor` is set to `seg_stop`. -/
def mainSyncStep (segStart segStop genMs cursor : ℚ) : MainStepOut :=
  let gapAdds : List ℚ :=
    if segStart > cursor then [((⌊(segStart - cursor) * 1000⌋ : ℤ) : ℚ)] else []
  let originalDur := segStop - segStart
  let generatedDur := genMs / 1000
  let ratio := if originalDur > 0 then generatedDur / originalDur else 1
  if ratio ≤ 1 then
    ⟨gapAdds ++ [genMs], none, segStop⟩
  else if ratio ≤ 1.3 then
    ⟨gapAdds ++ [genMs / ratio], none, segStop⟩
  else
    let stretchedMs := genMs / 1.3
    let extraSec := stretchedMs / 1000 - originalDur
    ⟨gapAdds ++ [stretchedMs],
     if extraSec > 0 then some extraSec else none,
     segStop⟩

/-- Speaker gender as produced by the Gemini enrichment step, which emits
exactly the strings `"Male"` and `"Female"`; `process_video_task` branches
on `gender.lower() == "female"` and counts registry keys by the substrings
`"Male"` / `"Female"` of `f"{speaker}_{gender}"`, which for these two
gender strings is exactly a comparison of the gender component. -/
inductive Gender
  | male
  | female
  deriving DecidableEq, Repr

/-- The registry key `f"{param_speaker}_{gender}"` used by
`process_video_task`'s speaker-voice management. -/
structure SpeakerKey where
  speaker : String
  gender : Gender
  deriving DecidableEq, Repr

/-- Pool `male_voices` from `process_video_task` (`main.py` line 757). -/
def male_voices : List String :=
  ["ar-EG-ShakirNeural", "ar-SA-HamedNeural", "ar-BH-AliNeural",
   "ar-YE-SalehNeural"]

/-- Pool `female_voices` from `process_video_task` (`main.py` line 758). -/
def female_voices : List String :=
  ["ar-EG-SalmaNeural", "ar-SA-ZariyahNeural", "ar-KW-NouraNeural",
   "ar-QA-AmalNeural"]

/-- The gender-partitioned voice pool selected by the
`gender.lower() == "female"` branch. -/
def genderPool : Gender → List String
  | Gender.male => male_voices
  | Gender.female => female_voices

/-- The `speaker_registry` dict, in insertion order. -/
abbrev Registry := List (SpeakerKey × String)

/-- Dict lookup `speaker_registry[speaker_key]`. -/
def lookupVoice : Registry → SpeakerKey → Option String
  | [], _ => none
  | (k, v) :: rest, key => if k = key then some v else lookupVoice rest key

/-- The voice-selection step of `process_video_task` (`main.py` lines
800-810): if the key is not yet registered, the new speaker receives
`pool[idx_v]` where `idx_v` is the number of already-registered
same-gender speakers modulo the pool size (round-robin), and the mapping
entry is recorded; the segment is then synthesized with
`speaker_registry[speaker_key]`.  Returns the updated registry and the
resolved voice. -/
def assignVoice (reg : Registry) (key : SpeakerKey) : Registry × String :=
  match lookupVoice reg key with
  | some v => (reg, v)
  | none =>
      let pool := genderPool key.gender
      let cnt := (reg.filter (fun p => p.1.gender = key.gender)).length
      let v := pool.getD (cnt % pool.length) ""
      (reg ++ [(key, v)], v)

/-- Voice resolution across the segments of one chunk: `process_video_task`
initializes `speaker_registry = {}` inside the per-chunk loop (`main.py`
line 760), then resolves each segment's key in order.  Returns the resolved
voices, in segment order, and the final registry. -/
def runAssign : List SpeakerKey → Registry → List String × Registry
  | [], reg => ([], reg)
  | key :: keys, reg =>
      let step := assignVoice reg key
      let rest := runAssign keys step.1
      (step.2 :: rest.1, rest.2)

/-- Embedding of `split_audio_chunks(audio_path, chunk_length_ms=300000)` from
`src/backend/main.py` lines 678-687, represented by the chunk windows in
milliseconds: `for i in range(0, duration_ms, chunk_length_ms)` emits the
pydub slice `audio[i : i + chunk_length_ms]`, whose window is
`[i, min(i + chunk_length_ms, duration_ms))`.  For `0 < chunkLenMs`,
`range(0, durationMs, chunkLenMs)` has `(durationMs + chunkLenMs - 1) /
chunkLenMs` elements `0, chunkLenMs, 2 * chunkLenMs, ...`. -/
def split_audio_chunks (durationMs chunkLenMs : ℕ) : List (ℕ × ℕ) :=
  (List.range ((durationMs + chunkLenMs - 1) / chunkLenMs)).map
    (fun i => (i * chunkLenMs, min (i * chunkLenMs + chunkLenMs) durationMs))

/-- A raw enriched segment as consumed by `optimize_segments_for_flow`
(`src/backend/services/processing.py` lines 154-167): Whisper timestamps in
seconds (`stop` embeds the dict key `end`), translated text, and diarized
speaker label. -/
structure RawSeg where
  start : ℚ
  stop : ℚ
  text : String
  speaker : String
  deriving DecidableEq, Repr

/-- Default `gap_threshold` parameter of `optimize_segments_for_flow`. -/
def gap_threshold : ℚ := 0.75

/-- Default `max_chars` parameter of `optimize_segments_for_flow`. -/
def max_chars : ℕ := 280

/-- The merge condition of `optimize_segments_for_flow`:
`gap < gap_threshold and (len(current["text"]) + len(next_seg["text"])) <
max_chars and current.get("speaker") == next_seg.get("speaker")`. -/
def mergeCond (cur next : RawSeg) : Bool :=
  decide (next.start - cur.stop < gap_threshold) &&
    decide (cur.text.length + next.text.length < max_chars) &&
    decide (cur.speaker = next.speaker)

/-- The merge action of `optimize_segments_for_flow`:
`current["text"] += " " + next_seg["text"]; current["end"] =
next_seg["end"]`. -/
def mergeSegs (cur next : RawSeg) : RawSeg :=
  { cur with text := cur.text ++ " " ++ next.text, stop := next.stop }

/-- The accumulator loop of `optimize_segments_for_flow`: `cur` is the
running `current` group, the list the remaining `segments[1:]`; on a merge
the group absorbs the next segment, otherwise the group is pushed and the
next segment starts a new group; the final group is appended at the end. -/
def optLoop : RawSeg → List RawSeg → List RawSeg
  | cur, [] => [cur]
  | cur, next :: rest =>
      if mergeCond cur next then optLoop (mergeSegs cur next) rest
      else cur :: optLoop next rest

/-- Embedding of `optimize_segments_for_flow(segments, gap_threshold=0.75,
max_chars=280)` from `processing.py` lines 154-167 (the copy in `main.py`
lines 690-723 merges with the identical condition). -/
def optimize_segments_for_flow : List RawSeg → List RawSeg
  | [] => []
  | first :: rest => optLoop first rest

/-- A stored task-status record, as held in the module-level `LOCAL_TASKS`
dict or in the `jobs/{task_id}.json` object in Supabase storage
(`src/backend/main.py`). -/
structure StatusResponse where
  status : String
  message : String
  deriving DecidableEq, Repr

/-- The job-status enumeration of the external interface
(spec section 6); the successful pipeline only ever writes statuses drawn
from the values used by `db_update` calls plus this list. -/
def statusEnum : List String :=
  ["PENDING", "EXTRACTING", "TRANSCRIBING", "TRANSLATING",
   "GENERATING_AUDIO", "MERGING", "UPLOADING", "COMPLETED", "FAILED",
   "PROCESSING"]

/-- Embedding of `get_task_status` (`src/backend/main.py` lines 590-607): consult the
in-memory `LOCAL_TASKS` table first; on a miss, try downloading
`jobs/{task_id}.json` from Supabase storage (any exception during the
download is swallowed, modelled by `storageJobs` returning `none`); when
both miss, return a normal response with the out-of-enum status
`"UNKNOWN"` and a not-found message — no exception is raised and no HTTP
error status is produced. -/
def get_task_status (localTasks storageJobs : String → Option StatusResponse)
    (taskId : String) : StatusResponse :=
  match localTasks taskId with
  | some rec => rec
  | none =>
      match storageJobs taskId with
      | some rec => rec
      | none => ⟨"UNKNOWN", "لم يتم العثور على المهمة"⟩

/-- An empty task-lookup table: no task id is known.  Used to exercise
`get_task_status` on a fully unknown id. -/
def emptyLookup : String → Option StatusResponse := fun _ => none

/-! ## Helper lemmas -/

theorem gapFill_mem {s c : ℚ} {a : Artifact} (h : a ∈ (gapFill s c).1) :
    a.kind = ArtifactKind.silence := by
  unfold gapFill at h
  split at h <;> simp_all

theorem reconcile_kind (ttsMs targetMs : ℚ) :
    (reconcile ttsMs targetMs).1.kind = ArtifactKind.speech := by
  simp only [reconcile]
  split_ifs <;> rfl

theorem segStep_skip (seg : Segment) (synth : Option ℚ) (cursor : ℚ)
    (h2 : seg.textLen < 2) :
    segStep seg synth cursor = ([], cursor) := by
  simp only [segStep, if_pos h2]

theorem segStep_failure (seg : Segment) (cursor : ℚ)
    (h2 : ¬ seg.textLen < 2) :
    segStep seg none cursor =
      ([⟨ArtifactKind.original, (seg.stop - seg.start) * 1000, seg.start⟩],
       cursor + (seg.stop - seg.start) * 1000) := by
  simp only [segStep, if_neg h2]

theorem segStep_success (seg : Segment) (ttsMs cursor : ℚ)
    (h2 : ¬ seg.textLen < 2) :
    segStep seg (some ttsMs) cursor =
      ((gapFill seg.start cursor).1 ++
          [(reconcile ttsMs ((seg.stop - seg.start) * 1000)).1],
       (gapFill seg.start cursor).2 +
          (reconcile ttsMs ((seg.stop - seg.start) * 1000)).2) := by
  simp only [segStep, if_neg h2]

theorem segStep_no_freeze (seg : Segment) (synth : Option ℚ) (cursor : ℚ) :
    ∀ a ∈ (segStep seg synth cursor).1, a.kind ≠ ArtifactKind.videoFreeze := by
  intro a ha
  by_cases h2 : seg.textLen < 2
  · rw [segStep_skip seg synth cursor h2] at ha
    simp at ha
  · cases synth with
    | none =>
        rw [segStep_failure seg cursor h2] at ha
        simp only [List.mem_singleton] at ha
        subst ha
        simp
    | some ttsMs =>
        rw [segStep_success seg ttsMs cursor h2] at ha
        rcases List.mem_append.mp ha with h | h
        · rw [gapFill_mem h]
          simp
        · simp only [List.mem_singleton] at h
          subst h
          rw [reconcile_kind]
          simp

/-! ## Claim theorems -/

/-- C3, counterexample: the pre-synthesis guard triggers strictly below the
claimed `1.3 * targetDuration` threshold.  For a cleaned translated text of
165 characters and a 10-second target, the estimate `165 / 13` is at most
`1.3 * 10` (so the claim says no paraphrase is requested), yet the pipeline
requests one, because the code's guard is `est_duration > target_dur *
1.25`. -/
theorem condense_threshold_cex :
    pipelineCondenseRequested 165 10 = true
    ∧ ¬ ((165 : ℚ) / est_chars_per_sec > 1.3 * 10) := by
  constructor
  · norm_num [pipelineCondenseRequested, condense_text_requests,
      est_chars_per_sec]
  · norm_num [est_chars_per_sec]

/-- C3, amended: before synthesis the pipeline estimates spoken duration as
cleaned-translated-text length divided by the fixed chars-per-second
constant 13, and requests a shortened paraphrase if and only if that
estimate exceeds `1.25 * targetDuration` (for a positive target duration;
`condense_text`'s own 10%-reduction early-return can never fire in that
case). -/
theorem condense_threshold_amended (textLen : ℕ) (targetDur : ℚ)
    (ht : 0 < targetDur) :
    pipelineCondenseRequested textLen targetDur = true ↔
      targetDur * 1.25 < (textLen : ℚ) / est_chars_per_sec := by
  simp only [pipelineCondenseRequested]
  constructor
  · intro h
    by_cases hc : targetDur * 1.25 < (textLen : ℚ) / est_chars_per_sec
    · exact hc
    · rw [if_neg hc] at h
      exact absurd h (by simp)
  · intro h
    rw [if_pos h]
    have hest : (0 : ℚ) < (textLen : ℚ) / est_chars_per_sec :=
      lt_trans (by positivity) h
    have h8 : targetDur / ((textLen : ℚ) / est_chars_per_sec) < 0.8 := by
      rw [div_lt_iff₀ hest]
      nlinarith
    simp only [condense_text_requests, Bool.not_eq_true',
      decide_eq_false_iff_not, not_lt]
    linarith

/-- C3, witness for the amended theorem at `textLen = 165`,
`targetDur = 10`. -/
theorem condense_threshold_amended_witness :
    (0 : ℚ) < 10
    ∧ (pipelineCondenseRequested 165 10 = true ↔
        (10 : ℚ) * 1.25 < (165 : ℚ) / est_chars_per_sec) :=
  ⟨by norm_num, condense_threshold_amended 165 10 (by norm_num)⟩

/-- C7, counterexample: with a chunk whose concatenated audio is 10150 ms
against a 10000 ms video, the excess is 150 ms, which is not more than the
claimed 200 ms tolerance — yet `process_segment_pipeline` stretches the
picture track, because its tolerance is 100 ms. -/
theorem mux_stretch_cex :
    muxStretch 10150 10000 = some (10150 / 10000)
    ∧ ¬ ((10150 : ℚ) - 10000 > 200) := by
  constructor
  · norm_num [muxStretch]
  · norm_num

/-- C7, amended: after concatenating a chunk's artifacts, the pipeline
uniformly time-stretches the picture track by `audioDuration /
videoDuration` if and only if the total audio duration exceeds the chunk's
video duration by more than 100 ms (not 200 ms); the decision does not
consult VIDEO_FREEZE artifacts — indeed `process_segment_pipeline` never
emits any per-segment VIDEO_FREEZE artifact. -/
theorem mux_stretch_amended (audioLenMs videoLenMs : ℚ) :
    (muxStretch audioLenMs videoLenMs = some (audioLenMs / videoLenMs) ↔
      videoLenMs + 100 < audioLenMs)
    ∧ (muxStretch audioLenMs videoLenMs = none ↔
      ¬ videoLenMs + 100 < audioLenMs)
    ∧ (∀ seg synth cursor, ∀ a ∈ (segStep seg synth cursor).1,
        a.kind ≠ ArtifactKind.videoFreeze) := by
  refine ⟨?_, ?_, fun seg synth cursor => segStep_no_freeze seg synth cursor⟩
  · unfold muxStretch
    constructor
    · intro h
      by_contra hc
      rw [if_neg hc] at h
      exact Option.noConfusion h
    · intro h
      rw [if_pos h]
  · unfold muxStretch
    constructor
    · intro h
      intro hc
      rw [if_pos hc] at h
      exact Option.noConfusion h
    · intro h
      rw [if_neg h]

/-- C7, witness for the amended theorem at 10150 ms of audio against
10000 ms of video: a 150 ms excess already triggers the stretch, and the
per-segment artifacts of a sample successful segment contain no
VIDEO_FREEZE. -/
theorem mux_stretch_amended_witness :
    (muxStretch 10150 10000 = some ((10150 : ℚ) / 10000) ↔
      (10000 : ℚ) + 100 < 10150)
    ∧ (⟨ArtifactKind.speech, 2080, 0⟩ : Artifact).kind ≠
        ArtifactKind.videoFreeze :=
  ⟨(mux_stretch_amended 10150 10000).1,
   (mux_stretch_amended 10150 10000).2.2 ⟨10, 12, 20⟩ (some 2600) 10000
     ⟨ArtifactKind.speech, 2080, 0⟩
     (by rw [show (segStep ⟨10, 12, 20⟩ (some 2600) 10000).1 =
           [⟨ArtifactKind.speech, 2080, 0⟩] from
         by norm_num [segStep, gapFill, reconcile]]
         exact List.mem_singleton.mpr rfl)⟩

/-- C2, code bug: for a segment `[0, 2)` whose synthesized clip lasts only
1 second (`ratio = 0.5 <= 1.0`), both implementations emit the 1000 ms clip
unpadded and advance the timeline by 1000 ms, not by the 2000 ms target:
in `process_video_task` (main.py, Scenario A) the trailing-silence pad is
computed only *after* `chunk_master_audio += segment_audio` and the padded
local variable is discarded, contradicting the adjacent comment "FIX: We
MUST pad audio to match video duration EXACTLY"; in
`process_segment_pipeline` (processing.py) the `ratio <= 1.0` branch
appends `tts_clean` as-is and advances `current_timeline_ms` by
`tts_dur_ms`. -/
theorem pad_to_target_bug :
    mainSyncStep 0 2 1000 0 = ⟨[1000], none, 2⟩
    ∧ segStep ⟨0, 2, 20⟩ (some 1000) 0 =
        ([⟨ArtifactKind.speech, 1000, 0⟩], 1000)
    ∧ (1000 : ℚ) ≠ 2 * 1000 := by
  refine ⟨by norm_num [mainSyncStep], by norm_num [segStep, gapFill, reconcile],
    by norm_num⟩

/-- C8, counterexample: in `process_video_task` — the pipeline wired to
the HTTP endpoint, cited by the claim via `main.py` lines 812-816 — a
failed synthesis is replaced by the fixed `AudioSegment.silent(duration=
500)` clip, not by a copy of the original source audio for the segment's
window: for the segment `[0, 2)` the chunk audio track grows by only
500 ms although the window is 2000 ms, so the window is left under-filled
(recall that the Scenario-A pad is dead code) and no original audio is
recalled, refuting the claim as stated for this engine. -/
theorem tts_fallback_cex :
    mainSyncStep 0 2 500 0 = ⟨[500], none, 2⟩
    ∧ (500 : ℚ) ≠ ((2 : ℚ) - 0) * 1000 := by
  refine ⟨by norm_num [mainSyncStep], by norm_num⟩

/-- C8, amended: in `process_segment_pipeline`, for every segment with
non-trivial cleaned text whose synthesis fails, the pipeline emits exactly
one artifact copying the original source audio for the window
`[start, start + (end - start))` = `[start, end)` and advances the cursor
by the segment's duration — the segment is never dropped.  In
`process_video_task`, by contrast, a failed synthesis is replaced by a
fixed 500 ms silent clip: whenever the segment lasts at least 0.5 s the
ratio logic lands in Scenario A and appends exactly those 500 ms (after
any gap silence), with no freeze and no original-audio recall, so the
segment's window is under-filled rather than refilled. -/
theorem tts_fallback_fills_window :
    (∀ (seg : Segment) (cursor : ℚ), 2 ≤ seg.textLen →
      segStep seg none cursor =
          ([⟨ArtifactKind.original, (seg.stop - seg.start) * 1000,
              seg.start⟩],
           cursor + (seg.stop - seg.start) * 1000)
        ∧ seg.start + ((seg.stop - seg.start) * 1000) / 1000 = seg.stop)
    ∧ (∀ segStart segStop cursor : ℚ, (0.5 : ℚ) ≤ segStop - segStart →
        mainSyncStep segStart segStop 500 cursor =
          ⟨(if segStart > cursor then
              [((⌊(segStart - cursor) * 1000⌋ : ℤ) : ℚ)] else []) ++ [500],
           none, segStop⟩) := by
  constructor
  · intro seg cursor h2
    constructor
    · exact segStep_failure seg cursor (by omega)
    · ring
  · intro segStart segStop cursor h
    have h0 : (0 : ℚ) < segStop - segStart := lt_of_lt_of_le (by norm_num) h
    have hr : (500 : ℚ) / 1000 / (segStop - segStart) ≤ 1 := by
      rw [div_le_one h0]
      linarith
    simp only [mainSyncStep]
    rw [if_pos (show segStop - segStart > 0 from h0), if_pos hr]

/-- C8, witness for the amended theorem: the segment `[3, 5)` with cursor
250 ms for the `process_segment_pipeline` part, and a failed synthesis in
the segment `[1, 3)` (gap 1000 ms) for the `process_video_task` part. -/
theorem tts_fallback_fills_window_witness :
    segStep ⟨3, 5, 4⟩ none 250 =
        ([⟨ArtifactKind.original, ((5 : ℚ) - 3) * 1000, 3⟩],
         250 + ((5 : ℚ) - 3) * 1000)
    ∧ mainSyncStep 1 3 500 0 =
        ⟨(if (1 : ℚ) > 0 then [((⌊((1 : ℚ) - 0) * 1000⌋ : ℤ) : ℚ)] else [])
            ++ [500], none, 3⟩ :=
  ⟨(tts_fallback_fills_window.1 ⟨3, 5, 4⟩ 250 (by norm_num)).1,
   tts_fallback_fills_window.2 1 3 0 (by norm_num)⟩

/-- C10: for any `task_id` missing from both the in-memory table and
persistent storage, `get_task_status` returns a normal response carrying
the out-of-enum status `"UNKNOWN"` with a not-found message rather than an
error; and when the local table has the id, the result is taken from it and
is independent of the storage collaborator (storage is consulted only on a
local miss). -/
theorem status_unknown_fallback
    (localTasks storageJobs : String → Option StatusResponse)
    (taskId : String) :
    (localTasks taskId = none → storageJobs taskId = none →
      get_task_status localTasks storageJobs taskId =
          ⟨"UNKNOWN", "لم يتم العثور على المهمة"⟩
        ∧ "UNKNOWN" ∉ statusEnum)
    ∧ (∀ r, localTasks taskId = some r →
        get_task_status localTasks storageJobs taskId = r
        ∧ ∀ storageJobs2,
            get_task_status localTasks storageJobs taskId =
              get_task_status localTasks storageJobs2 taskId) := by
  constructor
  · intro hl hs
    refine ⟨?_, by decide⟩
    unfold get_task_status
    rw [hl, hs]
  · intro r hl
    constructor
    · unfold get_task_status
      rw [hl]
    · intro storageJobs2
      unfold get_task_status
      rw [hl]

/-- C10, witness: with empty local table and empty storage, the status
response for task id `"t"` is the UNKNOWN record, and `"UNKNOWN"` is not a
pipeline status. -/
theorem status_unknown_fallback_witness :
    get_task_status emptyLookup emptyLookup "t" =
        ⟨"UNKNOWN", "لم يتم العثور على المهمة"⟩
      ∧ "UNKNOWN" ∉ statusEnum :=
  (status_unknown_fallback emptyLookup emptyLookup "t").1 rfl rfl

/-- Branch lemma: when the duration ratio exceeds 1.25 (positive target),
the reconciliation block caps the speed-up at 1.25x, emitting a clip of
`tts_dur_ms / 1.25` and advancing the cursor by the same amount. -/
theorem reconcile_cap (ttsMs targetMs : ℚ) (h0 : 0 < targetMs)
    (hr : 1.25 < ttsMs / targetMs) :
    reconcile ttsMs targetMs =
      (⟨ArtifactKind.speech, ttsMs / 1.25, 0⟩, ttsMs / 1.25) := by
  simp only [reconcile, if_pos (show targetMs > 0 from h0)]
  rw [if_neg (by linarith), if_neg (by linarith)]

/-- C1, counterexample: the spec's own example segment `[10, 12)` with a
2600 ms synthesized clip (`ratio = 1.3 > 1.25`).  `process_segment_pipeline`
emits the capped 2080 ms SPEECH artifact and advances the cursor by
2080 ms, but emits no VIDEO_FREEZE artifact at all (the overrun is left to
the end-of-chunk video stretch); and `process_video_task`, whose freeze
path exists, does not take it either at ratio 1.3, because its threshold is
`ratio > 1.3` — it speeds the clip up to exactly 2000 ms with no freeze. -/
theorem freeze_policy_cex :
    segStep ⟨10, 12, 20⟩ (some 2600) 10000 =
        ([⟨ArtifactKind.speech, 2080, 0⟩], 12080)
    ∧ (1.25 : ℚ) < 2600 / (((12 : ℚ) - 10) * 1000)
    ∧ (⟨ArtifactKind.speech, 2080, 0⟩ : Artifact).kind ≠
        ArtifactKind.videoFreeze
    ∧ mainSyncStep 10 12 2600 10 = ⟨[2000], none, 12⟩ := by
  refine ⟨by norm_num [segStep, gapFill, reconcile], by norm_num, by simp,
    by norm_num [mainSyncStep]⟩

/-- C1, amended: in `process_segment_pipeline`, for every segment with
non-trivial cleaned text whose ratio exceeds 1.25, the speed-up is capped
at 1.25x: a SPEECH artifact of duration `synthesizedDuration / 1.25` is
emitted (after any gap-fill silence) and the cursor advances by that
stretched duration, but no VIDEO_FREEZE artifact is emitted — the overrun
is absorbed by the end-of-chunk video stretch instead.  In
`process_video_task`, the per-segment freeze-extension path exists but
triggers only at `ratio > 1.3` with a 1.3x cap: the stretched clip of
`generated / 1.3` ms is emitted and a freeze-frame of
`generated/1.3/1000 - targetDuration` seconds is produced. -/
theorem freeze_policy_amended :
    (∀ (seg : Segment) (ttsMs cursor : ℚ), 2 ≤ seg.textLen →
        0 < (seg.stop - seg.start) * 1000 →
        1.25 < ttsMs / ((seg.stop - seg.start) * 1000) →
        segStep seg (some ttsMs) cursor =
            ((gapFill seg.start cursor).1 ++
                [⟨ArtifactKind.speech, ttsMs / 1.25, 0⟩],
             (gapFill seg.start cursor).2 + ttsMs / 1.25)
          ∧ ∀ a ∈ (segStep seg (some ttsMs) cursor).1,
              a.kind ≠ ArtifactKind.videoFreeze)
    ∧ (∀ segStart segStop genMs cursor : ℚ, 0 < segStop - segStart →
        1.3 < genMs / 1000 / (segStop - segStart) →
        mainSyncStep segStart segStop genMs cursor =
          ⟨(if segStart > cursor then
              [((⌊(segStart - cursor) * 1000⌋ : ℤ) : ℚ)] else []) ++
              [genMs / 1.3],
           some (genMs / 1.3 / 1000 - (segStop - segStart)), segStop⟩) := by
  constructor
  · intro seg ttsMs cursor h2 h0 hr
    refine ⟨?_, segStep_no_freeze seg (some ttsMs) cursor⟩
    rw [segStep_success seg ttsMs cursor (by omega)]
    rw [reconcile_cap _ _ h0 hr]
  · intro segStart segStop genMs cursor h0 hr
    have h1 : 1.3 * (segStop - segStart) < genMs / 1000 :=
      (lt_div_iff₀ h0).mp hr
    have h2 : genMs / 1.3 / 1000 - (segStop - segStart) > 0 := by
      have h3 : genMs / 1.3 / 1000 = (10 / 13) * (genMs / 1000) := by ring
      rw [h3]
      linarith
    simp only [mainSyncStep, if_pos (show segStop - segStart > 0 from h0)]
    rw [if_neg (by linarith), if_neg (by linarith), if_pos h2]

/-- C1, witness for the amended theorem: the spec's example segment for
`process_segment_pipeline` (ratio 1.3 in `[10, 12)`, 2600 ms clip,
cursor at 10000 ms) and a 2860 ms clip (ratio 1.43) for
`process_video_task`. -/
theorem freeze_policy_amended_witness :
    segStep ⟨10, 12, 20⟩ (some 2600) 10000 =
        ((gapFill 10 10000).1 ++ [⟨ArtifactKind.speech, 2600 / 1.25, 0⟩],
         (gapFill 10 10000).2 + 2600 / 1.25)
    ∧ mainSyncStep 10 12 2860 12 =
        ⟨(if (10 : ℚ) > 12 then [((⌊((10 : ℚ) - 12) * 1000⌋ : ℤ) : ℚ)] else [])
            ++ [2860 / 1.3],
         some (2860 / 1.3 / 1000 - ((12 : ℚ) - 10)), 12⟩ :=
  ⟨(freeze_policy_amended.1 ⟨10, 12, 20⟩ 2600 10000 (by norm_num)
      (by norm_num) (by norm_num)).1,
   freeze_policy_amended.2 10 12 2860 12 (by norm_num) (by norm_num)⟩

/-- C4, counterexample: a two-segment run refuting the claim as stated.
Segment 1 (`[0.5, 1)`) fails synthesis: although its gap to the cursor is
500 ms > 100 ms, no SILENCE artifact precedes its (original-audio fallback)
artifact, because the fallback path runs before the gap-fill block.
Segment 2 (`[1.2005, 2)`) succeeds with a 700.5 ms gap: the emitted silence
lasts `int(700.5) = 700` ms, not exactly the 700.5 ms gap (though the
cursor does advance by the exact gap: the final cursor is 1900.5). -/
theorem gap_fill_cex :
    processSegments [(⟨0.5, 1, 10⟩, none), (⟨1.2005, 2, 10⟩, some 700)] 0 =
        ([⟨ArtifactKind.original, 500, 0.5⟩, ⟨ArtifactKind.silence, 700, 0⟩,
          ⟨ArtifactKind.speech, 700, 0⟩], 1900.5)
    ∧ (0.5 : ℚ) * 1000 - 0 > 100
    ∧ (1.2005 : ℚ) * 1000 - 500 = 700.5
    ∧ (700 : ℚ) ≠ 700.5 := by
  refine ⟨by norm_num [processSegments, segStep, gapFill, reconcile],
    by norm_num, by norm_num, by norm_num⟩

/-- C4, amended: for every segment with non-trivial cleaned text whose
synthesis succeeds, a SILENCE artifact is emitted before the segment's
SPEECH artifact if and only if `start * 1000` minus the timeline cursor
exceeds 100 ms; the silence lasts the gap truncated to whole milliseconds
(`int(start_gap_ms)`), while the cursor advances by the exact (possibly
fractional) gap before the reconciliation advance.  (Segments whose
synthesis fails get the original-audio fallback with no preceding
gap-fill.) -/
theorem gap_fill_amended (seg : Segment) (ttsMs cursor : ℚ)
    (h2 : 2 ≤ seg.textLen) :
    (100 < seg.start * 1000 - cursor →
      (segStep seg (some ttsMs) cursor).1.head? =
          some ⟨ArtifactKind.silence,
            ((⌊seg.start * 1000 - cursor⌋ : ℤ) : ℚ), 0⟩
        ∧ (∀ a ∈ (segStep seg (some ttsMs) cursor).1.tail,
            a.kind ≠ ArtifactKind.silence)
        ∧ (segStep seg (some ttsMs) cursor).2 =
            (cursor + (seg.start * 1000 - cursor)) +
              (reconcile ttsMs ((seg.stop - seg.start) * 1000)).2)
    ∧ (¬ 100 < seg.start * 1000 - cursor →
      (∀ a ∈ (segStep seg (some ttsMs) cursor).1,
          a.kind ≠ ArtifactKind.silence)
        ∧ (segStep seg (some ttsMs) cursor).2 =
            cursor + (reconcile ttsMs ((seg.stop - seg.start) * 1000)).2) := by
  have hs := segStep_success seg ttsMs cursor (by omega)
  constructor
  · intro hgap
    rw [hs]
    unfold gapFill
    rw [if_pos hgap]
    refine ⟨rfl, ?_, rfl⟩
    intro a ha
    simp only [List.singleton_append, List.tail_cons, List.mem_singleton] at ha
    subst ha
    rw [reconcile_kind]
    simp
  · intro hgap
    rw [hs]
    unfold gapFill
    rw [if_neg hgap]
    refine ⟨?_, rfl⟩
    intro a ha
    simp only [List.nil_append, List.mem_singleton] at ha
    subst ha
    rw [reconcile_kind]
    simp

/-- C4, witness for the amended theorem at the segment `[1, 2)` with
cursor 0 (gap 1000 ms) and a 500 ms clip. -/
theorem gap_fill_amended_witness :
    (2 : ℕ) ≤ 10 ∧ (100 : ℚ) < 1 * 1000 - 0
    ∧ (segStep ⟨1, 2, 10⟩ (some 500) 0).1.head? =
        some ⟨ArtifactKind.silence, ((⌊(1 : ℚ) * 1000 - 0⌋ : ℤ) : ℚ), 0⟩ := by
  refine ⟨by norm_num, by norm_num, ?_⟩
  exact ((gap_fill_amended ⟨1, 2, 10⟩ 500 0 (by norm_num)).1 (by norm_num)).1

/-- Appending entries to the registry preserves existing lookups (Python
dict semantics: keys are never overwritten by `assignVoice`). -/
theorem lookupVoice_append_of_some {reg : Registry} {key : SpeakerKey}
    {v : String} (h : lookupVoice reg key = some v) (tail : Registry) :
    lookupVoice (reg ++ tail) key = some v := by
  induction reg with
  | nil => simp [lookupVoice] at h
  | cons p rest ih =>
      obtain ⟨k, w⟩ := p
      by_cases hk : k = key
      · simpa [lookupVoice, hk] using h
      · rw [List.cons_append]
        simp only [lookupVoice, if_neg hk] at h ⊢
        exact ih h

/-- A fresh registration is found by subsequent lookups. -/
theorem lookupVoice_append_single {reg : Registry} {key : SpeakerKey}
    (h : lookupVoice reg key = none) (v : String) :
    lookupVoice (reg ++ [(key, v)]) key = some v := by
  induction reg with
  | nil => simp [lookupVoice]
  | cons p rest ih =>
      obtain ⟨k, w⟩ := p
      by_cases hk : k = key
      · simp [lookupVoice, hk] at h
      · rw [List.cons_append]
        simp only [lookupVoice, if_neg hk] at h ⊢
        exact ih h

/-- After `assignVoice`, looking up the assigned key returns the voice it
resolved to. -/
theorem lookupVoice_assign_self (reg : Registry) (key : SpeakerKey) :
    lookupVoice (assignVoice reg key).1 key = some (assignVoice reg key).2 := by
  unfold assignVoice
  cases h : lookupVoice reg key with
  | some v => simpa using h
  | none => exact lookupVoice_append_single h _

/-- The voice-selection step never disturbs other keys' resolutions. -/
theorem lookupVoice_assign_preserve {reg : Registry} {key2 : SpeakerKey}
    {v : String} (h : lookupVoice reg key2 = some v) (key : SpeakerKey) :
    lookupVoice (assignVoice reg key).1 key2 = some v := by
  unfold assignVoice
  cases hk : lookupVoice reg key with
  | some w => simpa using h
  | none => exact lookupVoice_append_of_some h _

/-- Established resolutions survive the rest of the chunk's run. -/
theorem lookupVoice_run_preserve {key2 : SpeakerKey} {v : String} :
    ∀ (keys : List SpeakerKey) (reg : Registry),
      lookupVoice reg key2 = some v →
      lookupVoice (runAssign keys reg).2 key2 = some v := by
  intro keys
  induction keys with
  | nil => intro reg h; simpa [runAssign] using h
  | cons k ks ih =>
      intro reg h
      simp only [runAssign]
      exact ih _ (lookupVoice_assign_preserve h k)

/-- Every voice emitted during a chunk's run equals the final registry's
resolution of the corresponding key. -/
theorem runAssign_get_eq_lookup :
    ∀ (keys : List SpeakerKey) (reg : Registry) (i : ℕ) (key : SpeakerKey),
      keys[i]? = some key →
      (runAssign keys reg).1[i]? = lookupVoice (runAssign keys reg).2 key := by
  intro keys
  induction keys with
  | nil =>
      intro reg i key h
      simp at h
  | cons k ks ih =>
      intro reg i key h
      cases i with
      | zero =>
          simp only [List.getElem?_cons_zero, Option.some.injEq] at h
          subst h
          simp only [runAssign, List.getElem?_cons_zero]
          exact
            (lookupVoice_run_preserve ks _ (lookupVoice_assign_self reg k)).symm
      | succ n =>
          simp only [List.getElem?_cons_succ] at h
          simp only [runAssign, List.getElem?_cons_succ]
          exact ih _ n key h

/-- C5, counterexample: the `speaker_registry` is re-initialized for every
chunk of a job (`main.py` line 760), so the same `speaker_id` can resolve
to different voices in different chunks.  Chunk 1 sees Speaker A then
Speaker B (both male): B gets round-robin voice `ar-SA-HamedNeural`.
Chunk 2, of the same job, sees Speaker B first: B now gets
`ar-EG-ShakirNeural`. -/
theorem voice_stability_cex :
    (runAssign [⟨"Speaker A", Gender.male⟩, ⟨"Speaker B", Gender.male⟩] []).1 =
        ["ar-EG-ShakirNeural", "ar-SA-HamedNeural"]
    ∧ (runAssign [⟨"Speaker B", Gender.male⟩] []).1 = ["ar-EG-ShakirNeural"]
    ∧ ("ar-SA-HamedNeural" : String) ≠ "ar-EG-ShakirNeural" := by
  refine ⟨by decide, by decide, by decide⟩

/-- C5, amended: within one chunk, voice assignment is stable — any two
segments of the chunk carrying the same `(speaker, gender)` key resolve to
the identical voice identifier, new speakers being assigned round-robin
from the gender-partitioned pool; the invariant does not extend across
chunks because `process_video_task` re-initializes `speaker_registry` for
every chunk. -/
theorem voice_stability_amended (keys : List SpeakerKey) (reg : Registry)
    (i j : ℕ) (key : SpeakerKey) (hi : keys[i]? = some key)
    (hj : keys[j]? = some key) :
    (runAssign keys reg).1[i]? = (runAssign keys reg).1[j]? := by
  rw [runAssign_get_eq_lookup keys reg i key hi,
    runAssign_get_eq_lookup keys reg j key hj]

/-- C5, witness for the amended theorem: a chunk in which Speaker A speaks,
Speaker B interjects, and Speaker A speaks again — positions 0 and 2
resolve to the same voice. -/
theorem voice_stability_amended_witness :
    ([⟨"Speaker A", Gender.male⟩, ⟨"Speaker B", Gender.male⟩,
        ⟨"Speaker A", Gender.male⟩] : List SpeakerKey)[0]? =
        some ⟨"Speaker A", Gender.male⟩
    ∧ ([⟨"Speaker A", Gender.male⟩, ⟨"Speaker B", Gender.male⟩,
        ⟨"Speaker A", Gender.male⟩] : List SpeakerKey)[2]? =
        some ⟨"Speaker A", Gender.male⟩
    ∧ (runAssign [⟨"Speaker A", Gender.male⟩, ⟨"Speaker B", Gender.male⟩,
        ⟨"Speaker A", Gender.male⟩] []).1[0]? =
      (runAssign [⟨"Speaker A", Gender.male⟩, ⟨"Speaker B", Gender.male⟩,
        ⟨"Speaker A", Gender.male⟩] []).1[2]? :=
  ⟨rfl, rfl,
   voice_stability_amended
     [⟨"Speaker A", Gender.male⟩, ⟨"Speaker B", Gender.male⟩,
      ⟨"Speaker A", Gender.male⟩] [] 0 2 ⟨"Speaker A", Gender.male⟩ rfl rfl⟩

/-- Characterization of the batching merge condition. -/
theorem mergeCond_iff (cur next : RawSeg) :
    mergeCond cur next = true ↔
      (next.start - cur.stop < gap_threshold
        ∧ cur.text.length + next.text.length < max_chars
        ∧ cur.speaker = next.speaker) := by
  simp [mergeCond, and_assoc]

/-- The head of the batching loop's output keeps the opening segment's
start time and speaker, and its text only ever grows. -/
theorem optLoop_head :
    ∀ (rest : List RawSeg) (cur : RawSeg),
      ∃ h t, optLoop cur rest = h :: t
        ∧ h.start = cur.start ∧ h.speaker = cur.speaker
        ∧ cur.text.length ≤ h.text.length := by
  intro rest
  induction rest with
  | nil => intro cur; exact ⟨cur, [], rfl, rfl, rfl, le_refl _⟩
  | cons n rs ih =>
      intro cur
      by_cases hm : mergeCond cur n = true
      · obtain ⟨h, t, heq, hstart, hspk, hlen⟩ := ih (mergeSegs cur n)
        refine ⟨h, t, ?_, ?_, ?_, ?_⟩
        · simp only [optLoop, if_pos hm]
          exact heq
        · rw [hstart]; rfl
        · rw [hspk]; rfl
        · refine le_trans ?_ hlen
          simp only [mergeSegs, String.length_append]
          omega
      · exact ⟨cur, optLoop n rs, by simp only [optLoop, if_neg hm], rfl, rfl,
          le_refl _⟩

/-- A failed merge condition stays failed when the candidate's text grows
but its start time and speaker are unchanged. -/
theorem mergeCond_false_mono {cur n m : RawSeg}
    (h : ¬ mergeCond cur n = true) (hstart : m.start = n.start)
    (hspk : m.speaker = n.speaker) (hlen : n.text.length ≤ m.text.length) :
    ¬ mergeCond cur m = true := by
  intro hc
  apply h
  rw [mergeCond_iff] at hc ⊢
  obtain ⟨h1, h2, h3⟩ := hc
  rw [hstart] at h1
  rw [hspk] at h3
  exact ⟨h1, by omega, h3⟩

/-- Adjacent segments in the batching output never satisfy the merge
condition: the loop merges greedily until the condition fails. -/
theorem optLoop_chain :
    ∀ (rest : List RawSeg) (cur : RawSeg),
      List.Chain' (fun a b => mergeCond a b = false) (optLoop cur rest) := by
  intro rest
  induction rest with
  | nil => intro cur; simp [optLoop]
  | cons n rs ih =>
      intro cur
      by_cases hm : mergeCond cur n = true
      · simp only [optLoop, if_pos hm]
        exact ih (mergeSegs cur n)
      · simp only [optLoop, if_neg hm]
        obtain ⟨h, t, heq, hstart, hspk, hlen⟩ := optLoop_head rs n
        have hchain := ih n
        rw [heq] at hchain ⊢
        have hcf : mergeCond cur h = false :=
          Bool.not_eq_true _ ▸ (mergeCond_false_mono hm hstart hspk hlen)
        exact List.chain'_cons.mpr ⟨hcf, hchain⟩

/-- C9: in the batching fold of `optimize_segments_for_flow`, the next
segment is merged into the running group exactly when the gap to it is
under 0.75 s, the combined text length is under 280, and the speakers
coincide; the merged group's text is the space-joined concatenation, its
end time the later segment's end.  Consequently no two adjacent segments of
the output still satisfy the merge condition. -/
theorem segment_batching_policy (segs : List RawSeg) (cur next : RawSeg)
    (rest : List RawSeg) :
    List.Chain' (fun a b => mergeCond a b = false)
        (optimize_segments_for_flow segs)
    ∧ (mergeCond cur next = true ↔
        (next.start - cur.stop < gap_threshold
          ∧ cur.text.length + next.text.length < max_chars
          ∧ cur.speaker = next.speaker))
    ∧ optLoop cur (next :: rest) =
        (if mergeCond cur next then optLoop (mergeSegs cur next) rest
         else cur :: optLoop next rest)
    ∧ (mergeSegs cur next).text = cur.text ++ " " ++ next.text
    ∧ (mergeSegs cur next).stop = next.stop
    ∧ (mergeSegs cur next).start = cur.start := by
  refine ⟨?_, mergeCond_iff cur next, rfl, rfl, rfl, rfl⟩
  cases segs with
  | nil => simp [optimize_segments_for_flow]
  | cons s rest2 =>
      simp only [optimize_segments_for_flow]
      exact optLoop_chain rest2 s

/-- Division bounds for the chunk count `(D + W - 1) / W` of
`range(0, D, W)`. -/
theorem chunk_div_bounds {D W : ℕ} (hW : 0 < W) :
    D ≤ ((D + W - 1) / W) * W ∧ ((D + W - 1) / W) * W < D + W := by
  have key := Nat.div_add_mod (D + W - 1) W
  have hmod : (D + W - 1) % W < W := Nat.mod_lt _ hW
  rw [show ((D + W - 1) / W) * W = W * ((D + W - 1) / W) from mul_comm _ _]
  generalize W * ((D + W - 1) / W) = m at key ⊢
  generalize (D + W - 1) % W = r at key hmod
  omega

/-- Every chunk index below the chunk count starts strictly before the end
of the source. -/
theorem chunk_start_lt {D W k : ℕ} (hW : 0 < W)
    (hk : k < (D + W - 1) / W) : k * W < D := by
  have hb := chunk_div_bounds (D := D) (W := W) hW
  have hkW : (k + 1) * W ≤ ((D + W - 1) / W) * W :=
    Nat.mul_le_mul_right W hk
  have hexp : (k + 1) * W = k * W + W := by ring
  rw [hexp] at hkW
  have h2 := hb.2
  generalize ((D + W - 1) / W) * W = m at hkW h2
  generalize k * W = p at hkW ⊢
  omega

/-- The chunk count `(D + W - 1) / W` is the ceiling of `D / W`. -/
theorem chunk_count_eq_ceil {D W : ℕ} (hW : 0 < W) :
    (((D + W - 1) / W : ℕ) : ℤ) = ⌈(D : ℚ) / (W : ℚ)⌉ := by
  have hb := chunk_div_bounds (D := D) (W := W) hW
  have hWQ : (0 : ℚ) < (W : ℚ) := by exact_mod_cast hW
  have h1 : (D : ℚ) ≤ (((D + W - 1) / W : ℕ) : ℚ) * (W : ℚ) := by
    exact_mod_cast hb.1
  have h2 : (((D + W - 1) / W : ℕ) : ℚ) * (W : ℚ) < (D : ℚ) + (W : ℚ) := by
    exact_mod_cast hb.2
  rw [eq_comm, Int.ceil_eq_iff]
  constructor
  · rw [lt_div_iff₀ hWQ]
    simp only [Int.cast_natCast]
    linarith
  · rw [div_le_iff₀ hWQ]
    simp only [Int.cast_natCast]
    linarith

/-- C6: for a source of `D` ms split with window `W` ms (`0 < W`),
`split_audio_chunks` produces exactly `ceil(D / W)` chunks; chunk `k` is
the window `[k * W, min(k * W + W, D))`, which is non-empty; every chunk
except the last has length exactly `W` and ends where the next one starts;
the last chunk ends exactly at `D` (so the windows cover `[0, D)` with no
gaps and no overlaps); and an empty source yields no chunks. -/
theorem chunk_coverage (D W : ℕ) (hW : 0 < W) :
    ((split_audio_chunks D W).length : ℤ) = ⌈(D : ℚ) / (W : ℚ)⌉
    ∧ (∀ k, k < (split_audio_chunks D W).length →
        (split_audio_chunks D W)[k]? = some (k * W, min (k * W + W) D))
    ∧ (∀ k, k < (split_audio_chunks D W).length → k * W < D)
    ∧ (∀ k, k + 1 < (split_audio_chunks D W).length →
        min (k * W + W) D = (k + 1) * W)
    ∧ (∀ k, k + 1 = (split_audio_chunks D W).length →
        (split_audio_chunks D W)[k]? = some (k * W, D))
    ∧ (D = 0 → split_audio_chunks D W = []) := by
  have hlen : (split_audio_chunks D W).length = (D + W - 1) / W := by
    simp [split_audio_chunks]
  refine ⟨?_, ?_, ?_, ?_, ?_, ?_⟩
  · rw [hlen]
    exact chunk_count_eq_ceil hW
  · intro k hk
    rw [hlen] at hk
    simp only [split_audio_chunks]
    rw [List.getElem?_map, List.getElem?_range hk]
    rfl
  · intro k hk
    rw [hlen] at hk
    exact chunk_start_lt hW hk
  · intro k hk
    rw [hlen] at hk
    have h1 : (k + 1) * W < D := chunk_start_lt hW hk
    have hexp : (k + 1) * W = k * W + W := by ring
    rw [hexp] at h1
    rw [Nat.min_eq_left (le_of_lt h1), hexp]
  · intro k hk1
    rw [hlen] at hk1
    have hkn : k < (D + W - 1) / W := by omega
    have hD : D ≤ k * W + W := by
      have hb := (chunk_div_bounds (D := D) (W := W) hW).1
      rw [← hk1] at hb
      calc D ≤ (k + 1) * W := hb
      _ = k * W + W := by ring
    simp only [split_audio_chunks]
    rw [List.getElem?_map, List.getElem?_range hkn]
    simp only [Option.map_some']
    rw [Nat.min_eq_right hD]
  · intro hD
    subst hD
    have h0 : (W - 1) / W = 0 := Nat.div_eq_of_lt (by omega)
    simp [split_audio_chunks, h0]

/-- C6, witness: a 12-minute (720000 ms) source with the default 300000 ms
window yields exactly `ceil(720000 / 300000) = 3` chunks, of 300 s, 300 s
and 120 s, covering `[0, 720000)`. -/
theorem chunk_coverage_witness :
    ((split_audio_chunks 720000 300000).length : ℤ) =
        ⌈(720000 : ℚ) / (300000 : ℚ)⌉
    ∧ split_audio_chunks 720000 300000 =
        [(0, 300000), (300000, 600000), (600000, 720000)] :=
  ⟨(chunk_coverage 720000 300000 (by norm_num)).1, by decide⟩

end VideoDubber






